import Mathlib

/-!
Verification of the UK-law-mcp document-structuring and citation-canonicalization
engine. The definitions below are a shallow embedding, translated from the
TypeScript source:

  * `src/citation/parser.ts`   — `parseCitation`, `parseSection` and the three
    regular expressions `FULL_CITATION`, `SHORT_CITATION`, `SECTION_REF`;
  * `src/types/citations.ts`   — `ParsedCitation`, `formatCitation`, `buildPinpoint`;
  * `src/citation/validator.ts`— `validateCitation`;
  * `src/utils/fts-query.ts`   — `buildFtsQueryVariants`;
  * `scripts/lib/fetcher.ts`   — `flattenInlineElements`, `parseAtomFeed`,
    `extractProvisions` / `processElements` / `processSections`,
    `buildProvisionRef`, `extractContentText`, `extractAllText`.

Strings are modelled as `List Char` internally with `String` wrappers at the
function boundaries.  JavaScript regular expressions are hand-compiled into
deterministic matching functions; each definition's doc comment quotes the
source regex and the compilation is literal (alternation order, greedy and
lazy quantifier behaviour, and anchoring are reproduced).
-/

namespace UKLaw

/-- JS `\s` (whitespace class), restricted to the ASCII whitespace characters
that can occur in the data handled by the repository. -/
def jsWs (c : Char) : Bool :=
  c = ' ' || c = '\t' || c = '\n' || c = '\r' || c = '\x0b' || c = '\x0c'

/-- JS `\w`: `[A-Za-z0-9_]`. -/
def isWordChar (c : Char) : Bool :=
  ('a' ≤ c && c ≤ 'z') || ('A' ≤ c && c ≤ 'Z') || ('0' ≤ c && c ≤ '9') || c = '_'

/-- `[0-9]`. -/
def isDigitC (c : Char) : Bool := '0' ≤ c && c ≤ '9'

/-- `[a-z]` (case sensitive). -/
def isLowerAZ (c : Char) : Bool := 'a' ≤ c && c ≤ 'z'

/-- `[A-Z]` (case sensitive). -/
def isUpperAZ (c : Char) : Bool := 'A' ≤ c && c ≤ 'Z'

/-- `[a-z]` under the `/i` flag: any ASCII letter. -/
def isAlphaCI (c : Char) : Bool := isLowerAZ c || isUpperAZ c

/-- ASCII lower-casing, as used for case-insensitive regex matching. -/
def lowerC (c : Char) : Char :=
  if isUpperAZ c then Char.ofNat (c.toNat + 32) else c

/-- Case-insensitive character comparison (the `/i` regex flag). -/
def ciEq (a b : Char) : Bool := lowerC a = lowerC b

/-- JS `String.prototype.trim()` on a char list. -/
def jsTrimL (l : List Char) : List Char :=
  ((l.dropWhile jsWs).reverse.dropWhile jsWs).reverse

/-- JS `String.prototype.trim()`. -/
def jsTrim (s : String) : String := ⟨jsTrimL s.data⟩

/-- Decimal digit character for a value `< 10`. -/
def digitChar (n : Nat) : Char := Char.ofNat ('0'.toNat + n)

/-- Value of the decimal digit list (the effect of JS `parseInt(s, 10)` on a
string of decimal digits, as produced by the anchored `(\d{4})` and `(\d+)`
capture groups). -/
def digitsToNat (l : List Char) : Nat :=
  l.foldl (fun n c => n * 10 + (c.toNat - '0'.toNat)) 0

/-- Decimal rendering of a natural number (JS number-to-string interpolation
`${n}` for the non-negative integers handled by the code), via fuel. -/
def natToDecAux : Nat → Nat → List Char
  | 0, _ => []
  | fuel + 1, n =>
    if n < 10 then [digitChar n]
    else natToDecAux fuel (n / 10) ++ [digitChar (n % 10)]

/-- Decimal rendering of a natural number: models `${n}` in JS templates. -/
def natToDec (n : Nat) : List Char := natToDecAux (n + 1) n

/-- String form of `natToDec`. -/
def natToDecS (n : Nat) : String := ⟨natToDec n⟩

/-! ## Citation data model — `src/types/citations.ts` -/

/-- `'statute' | 'statutory_instrument' | 'unknown'`. -/
inductive CitationType
  | statute
  | statutory_instrument
  | unknown
deriving DecidableEq

/-- `interface ParsedCitation` from `src/types/citations.ts`; optional fields
become `Option`. -/
structure ParsedCitation where
  valid : Bool
  type : CitationType
  title : Option String := none
  year : Option Nat := none
  «section» : Option String := none
  subsection : Option String := none
  paragraph : Option String := none
  error : Option String := none
deriving DecidableEq

/-- `type CitationFormat = 'full' | 'short' | 'pinpoint'`. -/
inductive CitationFormat
  | full
  | short
  | pinpoint
deriving DecidableEq

/-! ## The citation regexes of `src/citation/parser.ts`, hand-compiled.

`FULL_CITATION  = /^(?:Section|s\.?)\s+(\d+(?:\(\d+\))*(?:\([a-z]\))*)\s*,?\s+(.+?)\s+(\d{4})$/i`
`SHORT_CITATION = /^s\.?\s+(\d+(?:\(\d+\))*(?:\([a-z]\))*)\s+([A-Z][A-Z0-9&\s]*?)\s+(\d{4})$/`
`SECTION_REF    = /^(\d+)(?:\((\d+)\))?(?:\(([a-z])\))?$/`

Each sub-pattern is compiled to a deterministic consumer.  Greedy quantifiers
whose continuation cannot overlap their character class are compiled to
maximal munch; the lazy `(.+?)`/`(…*?)` groups are compiled to a left-to-right
shortest-first search, exactly the backtracking engine's preference order. -/

/-- Strip a case-insensitive literal prefix (a regex alternative under `/i`). -/
def stripCiPrefix : List Char → List Char → Option (List Char)
  | [], l => some l
  | _ :: _, [] => none
  | p :: ps, c :: cs => if ciEq p c then stripCiPrefix ps cs else none

/-- Strip a case-sensitive literal prefix. -/
def stripPrefixExact : List Char → List Char → Option (List Char)
  | [], l => some l
  | _ :: _, [] => none
  | p :: ps, c :: cs => if c = p then stripPrefixExact ps cs else none

/-- One `\((\d+)\)`-style chunk: `(` , a nonempty maximal run of `p`-chars,
`)`.  Returns the inner run and the remainder. -/
def parenChunk (p : Char → Bool) (l : List Char) : Option (List Char × List Char) :=
  match l with
  | c :: rest =>
    if c = '(' then
      let ds := rest.takeWhile p
      let rest2 := rest.dropWhile p
      if ds.isEmpty then none
      else
        match rest2 with
        | ')' :: rest3 => some (ds, rest3)
        | _ => none
    else none
  | [] => none

/-- One `\(([a-z])\)`-style chunk: `(`, a single `p`-char, `)`. -/
def parenChunk1 (p : Char → Bool) (l : List Char) : Option (Char × List Char) :=
  match l with
  | a :: c :: b :: rest =>
    if a = '(' ∧ p c = true ∧ b = ')' then some (c, rest) else none
  | _ => none

/-- The starred numeric chunks `(?:\(\d+\))*`, greedy; fuelled (each chunk
consumes at least three characters, so `l.length` fuel always suffices). -/
def numChunksAux : Nat → List Char → List Char × List Char
  | 0, l => ([], l)
  | fuel + 1, l =>
    match parenChunk isDigitC l with
    | none => ([], l)
    | some (inner, rest) =>
      let (more, rest2) := numChunksAux fuel rest
      ('(' :: inner ++ ')' :: more, rest2)

/-- The starred single-letter chunks `(?:\([a-z]\))*`, greedy; the letter class
is a parameter because `FULL_CITATION` carries the `/i` flag and
`SHORT_CITATION` does not. -/
def letterChunksAux (p : Char → Bool) : Nat → List Char → List Char × List Char
  | 0, l => ([], l)
  | fuel + 1, l =>
    match parenChunk1 p l with
    | none => ([], l)
    | some (c, rest) =>
      let (more, rest2) := letterChunksAux p fuel rest
      ('(' :: c :: ')' :: more, rest2)

/-- The section-number capture `(\d+(?:\(\d+\))*(?:\([a-z]\))*)`: returns the
captured text and the remainder. -/
def matchPin (letterClass : Char → Bool) (l : List Char) : Option (List Char × List Char) :=
  let ds := l.takeWhile isDigitC
  let r := l.dropWhile isDigitC
  if ds.isEmpty then none
  else
    let (nc, r2) := numChunksAux r.length r
    let (lc, r3) := letterChunksAux letterClass r2.length r2
    some (ds ++ nc ++ lc, r3)

/-- `\s+` (greedy): requires at least one whitespace character. -/
def reqWsPlus (l : List Char) : Option (List Char) :=
  if (l.takeWhile jsWs).isEmpty then none else some (l.dropWhile jsWs)

/-- The prefix alternation `(?:Section|s\.?)` of `FULL_CITATION` under `/i`:
`Section` is tried first; otherwise `s` with a greedy optional dot.  (If the
first alternative matches, its continuation starts with `ection…`, on which
the `s\.?`-branch's mandatory `\s+` could never succeed, so committing to the
first alternative is faithful.) -/
def matchFullPrefix (l : List Char) : Option (List Char) :=
  match stripCiPrefix "Section".data l with
  | some r => some r
  | none =>
    match l with
    | c :: cs =>
      if ciEq 's' c then
        match cs with
        | '.' :: r => some r
        | _ => some cs
      else none
    | [] => none

/-- The separator `\s*,?\s+` of `FULL_CITATION`.  Compiled by case analysis on
the backtracking outcomes: a whitespace run, an optional comma inside or after
it, and at least one whitespace character in total; when the comma has no
whitespace after it the engine re-splits the run so that the lazy title starts
at the comma itself. -/
def fullSep (l : List Char) : Option (List Char) :=
  let w := l.takeWhile jsWs
  let r := l.dropWhile jsWs
  match r with
  | ',' :: r2 =>
    let w2 := r2.takeWhile jsWs
    let r3 := r2.dropWhile jsWs
    if w2.isEmpty then (if w.isEmpty then none else some r) else some r3
  | _ => if w.isEmpty then none else some r

/-- The anchored tail `\s+(\d{4})$`: at least one whitespace character followed
by exactly four digits at the end of input; returns the year digits. -/
def wsYearEnd (l : List Char) : Option (List Char) :=
  let w := l.takeWhile jsWs
  let r := l.dropWhile jsWs
  if w.isEmpty then none
  else if r.length = 4 && r.all isDigitC then some r else none

/-- The lazy title capture with its anchored tail, `(.+?)\s+(\d{4})$`:
shortest-first search for the split point; `.` does not match line
terminators.  Returns (title, year digits). -/
def titleYearSplit : List Char → Option (List Char × List Char)
  | [] => none
  | c :: cs =>
    if c = '\n' || c = '\r' then none
    else
      match wsYearEnd cs with
      | some y => some ([c], y)
      | none =>
        match titleYearSplit cs with
        | some (t, y) => some (c :: t, y)
        | none => none

/-- `FULL_CITATION` matched against the whole (trimmed) input.  Returns the
three capture groups (section token, title, year digits). -/
def matchFull (l : List Char) : Option (List Char × List Char × List Char) :=
  (matchFullPrefix l).bind fun r1 =>
  (reqWsPlus r1).bind fun r2 =>
  (matchPin isAlphaCI r2).bind fun pr =>
  (fullSep pr.2).bind fun r4 =>
  (titleYearSplit r4).map fun ty => (pr.1, ty.1, ty.2)

/-- The prefix `s\.?` of `SHORT_CITATION` (case-sensitive, greedy dot). -/
def matchShortPrefix (l : List Char) : Option (List Char) :=
  match l with
  | 's' :: '.' :: r => some r
  | 's' :: r => some r
  | _ => none

/-- The character class `[A-Z0-9&\s]` of the `SHORT_CITATION` title. -/
def shortTitleClass (c : Char) : Bool :=
  isUpperAZ c || isDigitC c || c = '&' || jsWs c

/-- Lazy continuation of the `SHORT_CITATION` title `[A-Z0-9&\s]*?\s+(\d{4})$`:
at each position the anchored tail is tried before consuming another class
character. -/
def shortTitleAux (acc : List Char) : List Char → Option (List Char × List Char)
  | [] =>
    match wsYearEnd [] with
    | some y => some (acc.reverse, y)
    | none => none
  | c :: cs =>
    match wsYearEnd (c :: cs) with
    | some y => some (acc.reverse, y)
    | none => if shortTitleClass c then shortTitleAux (c :: acc) cs else none

/-- The `SHORT_CITATION` title capture `([A-Z][A-Z0-9&\s]*?)` with its anchored
tail. -/
def shortTitleSplit : List Char → Option (List Char × List Char)
  | c :: cs => if isUpperAZ c then shortTitleAux [c] cs else none
  | [] => none

/-- `SHORT_CITATION` matched against the whole (trimmed) input.  The `\s+`
between the section token and the title commits to the maximal whitespace run:
a shorter run would leave the `[A-Z]` title start on a whitespace character,
and backtracking the greedy section token always leaves the cursor on a digit
or a `(`, never on whitespace, so no backtracking interplay arises. -/
def matchShort (l : List Char) : Option (List Char × List Char × List Char) :=
  (matchShortPrefix l).bind fun r1 =>
  (reqWsPlus r1).bind fun r2 =>
  (matchPin isLowerAZ r2).bind fun pr =>
  (reqWsPlus pr.2).bind fun r4 =>
  (shortTitleSplit r4).map fun ty => (pr.1, ty.1, ty.2)

/-- `SECTION_REF = /^(\d+)(?:\((\d+)\))?(?:\(([a-z])\))?$/`: section digits, an
optional parenthesised subsection, an optional parenthesised lower-case
paragraph letter, anchored at both ends. -/
def matchSectionRef (l : List Char) :
    Option (List Char × Option (List Char) × Option Char) :=
  let ds := l.takeWhile isDigitC
  let r := l.dropWhile isDigitC
  if ds.isEmpty then none
  else
    let (osub, r2) :=
      match parenChunk isDigitC r with
      | some (inner, rest) => (some inner, rest)
      | none => (none, r)
    let (opar, r3) :=
      match parenChunk1 isLowerAZ r2 with
      | some (c, rest) => (some c, rest)
      | none => (none, r2)
    if r3.isEmpty then some (ds, osub, opar) else none

/-! ## `parseCitation` — `src/citation/parser.ts` -/

/-- `parseSection` from `src/citation/parser.ts`: decompose the matched section
token with `SECTION_REF`; if the finer pattern does not match, keep the whole
token verbatim as `section`. -/
def parseSection (sectionStr : List Char) (title : List Char) (year : Nat)
    (type : CitationType) : ParsedCitation :=
  match matchSectionRef sectionStr with
  | none =>
    { valid := true, type := type, title := some ⟨jsTrimL title⟩,
      year := some year, «section» := some ⟨sectionStr⟩ }
  | some (sec, osub, opar) =>
    { valid := true, type := type, title := some ⟨jsTrimL title⟩,
      year := some year, «section» := some ⟨sec⟩,
      subsection := osub.map fun d => (⟨d⟩ : String),
      paragraph := opar.map fun c => (⟨[c]⟩ : String) }

/-- `parseCitation` from `src/citation/parser.ts`: trim, try `FULL_CITATION`,
then `SHORT_CITATION`, otherwise an invalid result whose error message embeds
the input. -/
def parseCitation (citation : String) : ParsedCitation :=
  let trimmed := jsTrimL citation.data
  match matchFull trimmed with
  | some (pin, title, yds) => parseSection pin title (digitsToNat yds) .statute
  | none =>
    match matchShort trimmed with
    | some (pin, title, yds) => parseSection pin title (digitsToNat yds) .statute
    | none =>
      { valid := false, type := .unknown,
        error := some ("Could not parse UK citation: \"" ++ (⟨trimmed⟩ : String) ++ "\"") }

/-! ## `formatCitation` — `src/types/citations.ts` -/

/-- `buildPinpoint`: section, then `(<subsection>)`, then `(<paragraph>)`. -/
def buildPinpoint (parsed : ParsedCitation) : String :=
  let ref := parsed.«section».getD ""
  let ref := match parsed.subsection with
    | some s => ref ++ "(" ++ s ++ ")"
    | none => ref
  match parsed.paragraph with
  | some p => ref ++ "(" ++ p ++ ")"
  | none => ref

/-- `formatCitation`: empty string for invalid or section-less citations,
otherwise one of the three templates (`full` is also the `default` branch of
the source's `switch`, so the compilation is total). -/
def formatCitation (parsed : ParsedCitation) (format : CitationFormat) : String :=
  if !parsed.valid || parsed.«section».isNone then ""
  else
    let pinpoint := buildPinpoint parsed
    let titleStr := parsed.title.getD ""
    let yearStr := (parsed.year.map natToDecS).getD ""
    match format with
    | .full => jsTrim ("Section " ++ pinpoint ++ ", " ++ titleStr ++ " " ++ yearStr)
    | .short => jsTrim ("s. " ++ pinpoint ++ " " ++ titleStr ++ " " ++ yearStr)
    | .pinpoint => "s. " ++ pinpoint

/-! ## Helper lemmas: character classes, whitespace runs, decimal rendering -/

theorem takeWhile_all_append {p : Char → Bool} {l r : List Char}
    (h : ∀ c ∈ l, p c = true) :
    (l ++ r).takeWhile p = l ++ r.takeWhile p := by
  induction l with
  | nil => simp
  | cons c cs ih =>
    rw [List.cons_append, List.takeWhile_cons_of_pos (h c (List.mem_cons_self c cs)),
      ih (fun d hd => h d (List.mem_cons_of_mem c hd)), List.cons_append]

theorem dropWhile_all_append {p : Char → Bool} {l r : List Char}
    (h : ∀ c ∈ l, p c = true) :
    (l ++ r).dropWhile p = r.dropWhile p := by
  induction l with
  | nil => simp
  | cons c cs ih =>
    rw [List.cons_append, List.dropWhile_cons_of_pos (h c (List.mem_cons_self c cs)),
      ih (fun d hd => h d (List.mem_cons_of_mem c hd))]

theorem getLast?_append_ne {l r : List Char} (hr : r ≠ []) :
    (l ++ r).getLast? = r.getLast? := by
  rw [List.getLast?_append]
  cases hgl : r.getLast? with
  | none => exact absurd (List.getLast?_eq_none_iff.mp hgl) hr
  | some x => rfl

/-- A valid `ParsedCitation` as produced by the parser for a statute citation
with the given components. -/
def mkValidCitation (T : List Char) (year : Nat) (sec : List Char)
    (osub : Option (List Char)) (opar : Option Char) : ParsedCitation :=
  { valid := true, type := .statute, title := some ⟨T⟩, year := some year,
    «section» := some ⟨sec⟩,
    subsection := osub.map fun d => (⟨d⟩ : String),
    paragraph := opar.map fun c => (⟨[c]⟩ : String) }

/-- Claim C9: parsing the input `s. 1(1)(a) Data Protection Act 2018` yields a
valid citation with section `1`, subsection `1`, paragraph `a`, and formatting
that citation with the pinpoint convention yields exactly `s. 1(1)(a)`. -/
theorem citation_scenario_pinpoint :
    parseCitation ("s. 1(1)(a) Data Protection Act 2018") =
      { valid := true, type := .statute, title := some ("Data Protection Act"),
        year := some 2018, «section» := some ("1"), subsection := some ("1"),
        paragraph := some ("a") } ∧
    formatCitation (parseCitation ("s. 1(1)(a) Data Protection Act 2018")) .pinpoint
      = ("s. 1(1)(a)") := by
  exact ⟨by decide, by decide⟩

/-- The self-closing inline element names of the first pass. -/
def selfClosingNames : List (List Char) :=
  [("noteRef").data, ("marker").data, ("ref").data]

/-- The paired inline element names of the second pass. -/
def pairedNames : List (List Char) :=
  [("ins").data, ("del").data, ("ref").data, ("authorialNote").data]

/-- `\b` after a literal name: the next character is not a word character, or
the input ends. -/
def boundaryOk : List Char → Bool
  | [] => true
  | c :: _ => !isWordChar c

/-- The name alternation followed by `\b`, alternatives in source order; a
boundary failure backtracks to the next alternative at the same position
(the names have pairwise distinct first characters or are non-prefixes of one
another, so at most one alternative can reach its tail). -/
def tryNames (names : List (List Char)) (l : List Char) : Option (List Char) :=
  match names with
  | [] => none
  | n :: ns =>
    match stripPrefixExact n l with
    | some r => if boundaryOk r then some r else tryNames ns l
    | none => tryNames ns l

/-- `[^>]*\/>`: the class cannot cross a `>`, so the match succeeds exactly
when the run up to the first `>` ends in `/`; returns the remainder after the
`>`. -/
def selfClosingTail (l : List Char) : Option (List Char) :=
  match l.dropWhile (fun c => c != '>') with
  | '>' :: r2 =>
    if (l.takeWhile (fun c => c != '>')).getLast? = some '/' then some r2 else none
  | _ => none

/-- A match attempt of `<(?:…)\b[^>]*\/>` at the current position; the
replacement is empty. -/
def trySelfClosing (names : List (List Char)) (l : List Char) :
    Option (List Char × List Char) :=
  match l with
  | c :: r =>
    if c = '<' then
      (tryNames names r).bind fun r2 =>
        (selfClosingTail r2).map fun r3 => (([] : List Char), r3)
    else none
  | [] => none

/-- `[^>]*>` after the opening-tag name: greedy up to and including the first
`>`. -/
def openTagTail (l : List Char) : Option (List Char) :=
  match l.dropWhile (fun c => c != '>') with
  | '>' :: r => some r
  | _ => none

/-- A closing-tag name followed immediately by `>` (the closing alternation
carries no `\b`; a failed `>` falls through to the next alternative). -/
def tryClosingName (names : List (List Char)) (l : List Char) : Option (List Char) :=
  match names with
  | [] => none
  | n :: ns =>
    match stripPrefixExact n l with
    | some ('>' :: r) => some r
    | _ => tryClosingName ns l

/-- A closing tag `<\/(?:ins|del|ref|authorialNote)>` at the current
position. -/
def tryClosingAt (l : List Char) : Option (List Char) :=
  match l with
  | '<' :: '/' :: r => tryClosingName pairedNames r
  | _ => none

/-- The lazy inner capture `([\s\S]*?)` with its closing-tag continuation: the
earliest closing tag ends the capture.  Returns (inner text, remainder). -/
def findClosing : List Char → Option (List Char × List Char)
  | [] => none
  | c :: r =>
    match tryClosingAt (c :: r) with
    | some rest => some ([], rest)
    | none =>
      match findClosing r with
      | some (inner, rest) => some (c :: inner, rest)
      | none => none

/-- A match attempt of the paired-element pattern at the current position; the
replacement is the captured inner text (`$1`). -/
def tryPaired (l : List Char) : Option (List Char × List Char) :=
  match l with
  | c :: r =>
    if c = '<' then
      (tryNames pairedNames r).bind fun r2 =>
        (openTagTail r2).bind fun r3 =>
          findClosing r3
    else none
  | [] => none

/-- One global-`replace` pass: at each position run the match attempt; on a
match emit the replacement and resume scanning after the matched text
(JS `replace` with `g` never rescans replacement text).  One unit of fuel is
spent per position and every match consumes at least one input character, so
the input length is always sufficient fuel. -/
def replacePass (att : List Char → Option (List Char × List Char)) :
    Nat → List Char → List Char
  | 0, l => l
  | _ + 1, [] => []
  | fuel + 1, c :: rest =>
    match att (c :: rest) with
    | some (rep, rem) => rep ++ replacePass att fuel rem
    | none => c :: replacePass att fuel rest

/-- `flattenInlineElements` from `scripts/lib/fetcher.ts`: strip self-closing
`noteRef`/`marker`/`ref`, unwrap paired `ins`/`del`/`ref`/`authorialNote` to
their inner text, then strip self-closing `noteRef` again (text materialised
by the second pass). -/
def flattenInlineElements (xml : String) : String :=
  let l1 := replacePass (trySelfClosing selfClosingNames) xml.data.length xml.data
  let l2 := replacePass tryPaired l1.length l1
  let l3 := replacePass (trySelfClosing [("noteRef").data]) l2.length l2
  ⟨l3⟩

/-! ## Claim theorems for the flattener (C5 and C6) -/

theorem trySelfClosing_no_angle (names : List (List Char)) :
    ∀ c r, c ≠ '<' → trySelfClosing names (c :: r) = none := by
  intro c r hc
  simp [trySelfClosing, hc]

theorem tryPaired_no_angle : ∀ c r, c ≠ '<' → tryPaired (c :: r) = none := by
  intro c r hc
  simp [tryPaired, hc]

theorem replacePass_no_angle {att : List Char → Option (List Char × List Char)}
    (ht : ∀ c r, c ≠ '<' → att (c :: r) = none) :
    ∀ fuel l, (∀ c ∈ l, c ≠ '<') → replacePass att fuel l = l := by
  intro fuel
  induction fuel with
  | zero => intro l _; rfl
  | succ f ih =>
    intro l h
    cases l with
    | nil => rfl
    | cons c rest =>
      simp only [replacePass, ht c rest (h c (List.mem_cons_self _ _))]
      rw [ih rest (fun d hd => h d (List.mem_cons_of_mem c hd))]

theorem replacePass_cons_none {att : List Char → Option (List Char × List Char)}
    {c : Char} {r : List Char} (h : att (c :: r) = none) (fuel : Nat) :
    replacePass att (fuel + 1) (c :: r) = c :: replacePass att fuel r := by
  simp [replacePass, h]

theorem replacePass_cons_some {att : List Char → Option (List Char × List Char)}
    {c : Char} {r rep rem : List Char} (h : att (c :: r) = some (rep, rem)) (fuel : Nat) :
    replacePass att (fuel + 1) (c :: r) = rep ++ replacePass att fuel rem := by
  simp [replacePass, h]

theorem replacePass_append_no_angle {att : List Char → Option (List Char × List Char)}
    (ht : ∀ c r, c ≠ '<' → att (c :: r) = none) :
    ∀ (x : List Char) (fuel : Nat) (l : List Char), (∀ d ∈ x, d ≠ '<') →
      replacePass att (x.length + fuel) (x ++ l) = x ++ replacePass att fuel l := by
  intro x
  induction x with
  | nil => intro fuel l _; simp
  | cons d x2 ih =>
    intro fuel l h
    have hd : d ≠ '<' := h d (List.mem_cons_self _ _)
    have hfe : (d :: x2).length + fuel = (x2.length + fuel) + 1 := by
      simp only [List.length_cons]; omega
    rw [List.cons_append, hfe,
      replacePass_cons_none (ht d (x2 ++ l) hd) (x2.length + fuel),
      ih fuel l (fun e he => h e (List.mem_cons_of_mem d he))]
    rfl

theorem tryClosingAt_no_angle {c : Char} {r : List Char} (hc : c ≠ '<') :
    tryClosingAt (c :: r) = none := by
  unfold tryClosingAt
  split
  · rename_i heq
    injection heq with h1 _
    exact absurd h1 hc
  · rfl

theorem findClosing_cons_of_none {c : Char} {r i rest : List Char}
    (h : tryClosingAt (c :: r) = none) (hr : findClosing r = some (i, rest)) :
    findClosing (c :: r) = some (c :: i, rest) := by
  simp [findClosing, h, hr]

theorem findClosing_skip_no_angle :
    ∀ (x : List Char), (∀ d ∈ x, d ≠ '<') →
      ∀ {l i rest : List Char}, findClosing l = some (i, rest) →
        findClosing (x ++ l) = some (x ++ i, rest) := by
  intro x
  induction x with
  | nil => intro _ l i rest hl; simpa using hl
  | cons d x2 ih =>
    intro h l i rest hl
    have hd : d ≠ '<' := h d (List.mem_cons_self _ _)
    have h2 := ih (fun e he => h e (List.mem_cons_of_mem d he)) hl
    rw [List.cons_append]
    exact findClosing_cons_of_none (tryClosingAt_no_angle hd) h2

/-- Claim C5 fails as stated: the flattener is not idempotent.  On the input
`<<ins>ins</ins> x>hello</ins>` the paired pass rewrites `<ins>ins</ins>` to
`ins`, materialising the new opening tag `<ins x>`; a second application then
unwraps it, so applying the flattener twice differs from applying it once. -/
theorem flatten_not_idempotent_counterexample :
    flattenInlineElements ("<<ins>ins</ins> x>hello</ins>") = ("<ins x>hello</ins>") ∧
    flattenInlineElements (flattenInlineElements ("<<ins>ins</ins> x>hello</ins>"))
      = ("hello") ∧
    flattenInlineElements (flattenInlineElements ("<<ins>ins</ins> x>hello</ins>"))
      ≠ flattenInlineElements ("<<ins>ins</ins> x>hello</ins>") := by
  exact ⟨by decide, by decide, by decide⟩

/-- Claim C5 (amended): the flattener is a no-op on text that contains no
markup opener `<` at all — in particular on fully flattened plain text — but
it is not idempotent in general, because stripping paired tags can materialise
new tag-shaped text (see the counterexample). -/
theorem flatten_noop_on_plain_text (s : String) (h : ∀ c ∈ s.data, c ≠ '<') :
    flattenInlineElements s = s := by
  have h1 := replacePass_no_angle (trySelfClosing_no_angle selfClosingNames)
    s.data.length s.data h
  have h2 := replacePass_no_angle tryPaired_no_angle s.data.length s.data h
  have h3 := replacePass_no_angle (trySelfClosing_no_angle [("noteRef").data])
    s.data.length s.data h
  simp only [flattenInlineElements, h1, h2, h3]

/-- Witness: flattening plain text is a no-op. -/
theorem flatten_noop_on_plain_text_witness :
    flattenInlineElements ("Most processing is subject to the UK GDPR.")
      = ("Most processing is subject to the UK GDPR.") :=
  flatten_noop_on_plain_text ("Most processing is subject to the UK GDPR.") (by decide)

theorem boundaryOk_append {b M : List Char}
    (hbw : b.head?.all (fun d => !isWordChar d) = true)
    (hM : boundaryOk M = true) :
    boundaryOk (b ++ M) = true := by
  cases b with
  | nil => simpa using hM
  | cons d b2 =>
    simp only [List.head?_cons, Option.all_some] at hbw
    simpa [boundaryOk] using hbw

/-- In the first pass, a `noteRef` open fragment whose `/>` is separated from
it by a paired close tag is not a complete self-closing element: the
attribute class `[^>]*` stops at the `>` of `</ins>`, which is not preceded
by `/`. -/
theorem trySelfClosing_noteRef_frag {b : List Char} (r : List Char)
    (hb2 : ∀ d ∈ b, d ≠ '>')
    (hbw : b.head?.all (fun d => !isWordChar d) = true) :
    trySelfClosing selfClosingNames
        ('<':: 'n':: 'o':: 't':: 'e':: 'R':: 'e':: 'f'::(b ++ ('<':: '/':: 'i':: 'n':: 's':: '>'::r)))
      = none := by
  have hpw : ∀ d ∈ b, ((fun x => x != '>') d = true) := fun d hd => by
    simpa using hb2 d hd
  have hbOk : boundaryOk (b ++ ('<':: '/':: 'i':: 'n':: 's':: '>'::r)) = true :=
    boundaryOk_append hbw rfl
  have hdw : (b ++ ('<':: '/':: 'i':: 'n':: 's':: '>'::r)).dropWhile (fun x => x != '>')
      = '>'::r := by
    rw [dropWhile_all_append hpw]
    rfl
  have htw : (b ++ ('<':: '/':: 'i':: 'n':: 's':: '>'::r)).takeWhile (fun x => x != '>')
      = b ++ ('<':: '/':: 'i':: 'n':: 's'::[]) := by
    rw [takeWhile_all_append hpw]
    rfl
  have hsct : selfClosingTail (b ++ ('<':: '/':: 'i':: 'n':: 's':: '>'::r)) = none := by
    simp only [selfClosingTail, hdw, htw]
    rw [getLast?_append_ne (by simp)]
    simp
  have htn : tryNames selfClosingNames
      ('n':: 'o':: 't':: 'e':: 'R':: 'e':: 'f'::(b ++ ('<':: '/':: 'i':: 'n':: 's':: '>'::r)))
      = some (b ++ ('<':: '/':: 'i':: 'n':: 's':: '>'::r)) := by
    show (if boundaryOk (b ++ ('<':: '/':: 'i':: 'n':: 's':: '>'::r)) = true then
        some (b ++ ('<':: '/':: 'i':: 'n':: 's':: '>'::r))
      else tryNames [("marker").data, ("ref").data]
        ('n':: 'o':: 't':: 'e':: 'R':: 'e':: 'f'::(b ++ ('<':: '/':: 'i':: 'n':: 's':: '>'::r))))
      = some (b ++ ('<':: '/':: 'i':: 'n':: 's':: '>'::r))
    rw [if_pos hbOk]
  show (if ('<' : Char) = '<' then
      (tryNames selfClosingNames
        ('n':: 'o':: 't':: 'e':: 'R':: 'e':: 'f'::(b ++ ('<':: '/':: 'i':: 'n':: 's':: '>'::r)))).bind
        fun r2 => (selfClosingTail r2).map fun r3 => (([] : List Char), r3)
    else none) = none
  rw [if_pos rfl, htn]
  simp [hsct]

/-- In the third pass, the fragment completed by the stripped close tag is a
self-closing `noteRef`, removed with remainder `c`. -/
theorem trySelfClosing_noteRef_done {b c : List Char}
    (hb2 : ∀ d ∈ b, d ≠ '>')
    (hbw : b.head?.all (fun d => !isWordChar d) = true) :
    trySelfClosing [("noteRef").data]
        ('<':: 'n':: 'o':: 't':: 'e':: 'R':: 'e':: 'f'::(b ++ ('/':: '>'::c)))
      = some ([], c) := by
  have hpw : ∀ d ∈ b, ((fun x => x != '>') d = true) := fun d hd => by
    simpa using hb2 d hd
  have hbOk : boundaryOk (b ++ ('/':: '>'::c)) = true :=
    boundaryOk_append hbw rfl
  have hdw : (b ++ ('/':: '>'::c)).dropWhile (fun x => x != '>') = '>'::c := by
    rw [dropWhile_all_append hpw]
    rfl
  have htw : (b ++ ('/':: '>'::c)).takeWhile (fun x => x != '>') = b ++ ('/'::[]) := by
    rw [takeWhile_all_append hpw]
    rfl
  have hsct : selfClosingTail (b ++ ('/':: '>'::c)) = some c := by
    simp only [selfClosingTail, hdw, htw]
    rw [getLast?_append_ne (by simp)]
    simp
  have htn : tryNames [("noteRef").data]
      ('n':: 'o':: 't':: 'e':: 'R':: 'e':: 'f'::(b ++ ('/':: '>'::c)))
      = some (b ++ ('/':: '>'::c)) := by
    show (if boundaryOk (b ++ ('/':: '>'::c)) = true then some (b ++ ('/':: '>'::c))
      else tryNames [] ('n':: 'o':: 't':: 'e':: 'R':: 'e':: 'f'::(b ++ ('/':: '>'::c))))
      = some (b ++ ('/':: '>'::c))
    rw [if_pos hbOk]
  show (if ('<' : Char) = '<' then
      (tryNames [("noteRef").data]
        ('n':: 'o':: 't':: 'e':: 'R':: 'e':: 'f'::(b ++ ('/':: '>'::c)))).bind
        fun r2 => (selfClosingTail r2).map fun r3 => (([] : List Char), r3)
    else none) = some ([], c)
  rw [if_pos rfl, htn]
  simp [hsct]

/-- The lazy inner capture of the paired pass ends at the materialising close
tag: the captured text is the `noteRef` fragment. -/
theorem findClosing_noteRef {b : List Char} (r : List Char)
    (hb1 : ∀ d ∈ b, d ≠ '<') :
    findClosing ('<':: 'n':: 'o':: 't':: 'e':: 'R':: 'e':: 'f'::(b ++ ('<':: '/':: 'i':: 'n':: 's':: '>'::r)))
      = some ('<':: 'n':: 'o':: 't':: 'e':: 'R':: 'e':: 'f'::b, r) := by
  have h0 : findClosing ('<':: '/':: 'i':: 'n':: 's':: '>'::r) = some ([], r) := rfl
  have h1 : findClosing (b ++ ('<':: '/':: 'i':: 'n':: 's':: '>'::r)) = some (b, r) := by
    have h2 := findClosing_skip_no_angle b hb1 h0
    simpa using h2
  have s7 : findClosing ('f'::(b ++ ('<':: '/':: 'i':: 'n':: 's':: '>'::r)))
      = some ('f'::b, r) :=
    findClosing_cons_of_none (tryClosingAt_no_angle (by decide)) h1
  have s6 := findClosing_cons_of_none (tryClosingAt_no_angle (by decide : ('e' : Char) ≠ '<')) s7
  have s5 := findClosing_cons_of_none (tryClosingAt_no_angle (by decide : ('R' : Char) ≠ '<')) s6
  have s4 := findClosing_cons_of_none (tryClosingAt_no_angle (by decide : ('e' : Char) ≠ '<')) s5
  have s3 := findClosing_cons_of_none (tryClosingAt_no_angle (by decide : ('t' : Char) ≠ '<')) s4
  have s2 := findClosing_cons_of_none (tryClosingAt_no_angle (by decide : ('o' : Char) ≠ '<')) s3
  have s1 := findClosing_cons_of_none (tryClosingAt_no_angle (by decide : ('n' : Char) ≠ '<')) s2
  exact findClosing_cons_of_none rfl s1

theorem flatten_pass1_core {b c : List Char}
    (hb1 : ∀ d ∈ b, d ≠ '<') (hb2 : ∀ d ∈ b, d ≠ '>')
    (hbw : b.head?.all (fun d => !isWordChar d) = true) (hc : ∀ d ∈ c, d ≠ '<') :
    replacePass (trySelfClosing selfClosingNames)
        ('<':: 'i':: 'n':: 's':: '>':: '<':: 'n':: 'o':: 't':: 'e':: 'R':: 'e':: 'f'::
          (b ++ ('<':: '/':: 'i':: 'n':: 's':: '>':: '/':: '>'::c))).length
        ('<':: 'i':: 'n':: 's':: '>':: '<':: 'n':: 'o':: 't':: 'e':: 'R':: 'e':: 'f'::
          (b ++ ('<':: '/':: 'i':: 'n':: 's':: '>':: '/':: '>'::c)))
      = '<':: 'i':: 'n':: 's':: '>':: '<':: 'n':: 'o':: 't':: 'e':: 'R':: 'e':: 'f'::
          (b ++ ('<':: '/':: 'i':: 'n':: 's':: '>':: '/':: '>'::c)) := by
  have e1 : trySelfClosing selfClosingNames
      ('<':: 'i':: 'n':: 's':: '>':: '<':: 'n':: 'o':: 't':: 'e':: 'R':: 'e':: 'f'::
        (b ++ ('<':: '/':: 'i':: 'n':: 's':: '>':: '/':: '>'::c))) = none := rfl
  have f1 : trySelfClosing selfClosingNames
      ('<':: '/':: 'i':: 'n':: 's':: '>':: '/':: '>'::c) = none := rfl
  simp only [List.length_cons, List.length_append]
  rw [replacePass_cons_none e1]
  rw [replacePass_cons_none (trySelfClosing_no_angle selfClosingNames 'i' _ (by decide))]
  rw [replacePass_cons_none (trySelfClosing_no_angle selfClosingNames 'n' _ (by decide))]
  rw [replacePass_cons_none (trySelfClosing_no_angle selfClosingNames 's' _ (by decide))]
  rw [replacePass_cons_none (trySelfClosing_no_angle selfClosingNames '>' _ (by decide))]
  rw [replacePass_cons_none (trySelfClosing_noteRef_frag ('/':: '>'::c) hb2 hbw)]
  rw [replacePass_cons_none (trySelfClosing_no_angle selfClosingNames 'n' _ (by decide))]
  rw [replacePass_cons_none (trySelfClosing_no_angle selfClosingNames 'o' _ (by decide))]
  rw [replacePass_cons_none (trySelfClosing_no_angle selfClosingNames 't' _ (by decide))]
  rw [replacePass_cons_none (trySelfClosing_no_angle selfClosingNames 'e' _ (by decide))]
  rw [replacePass_cons_none (trySelfClosing_no_angle selfClosingNames 'R' _ (by decide))]
  rw [replacePass_cons_none (trySelfClosing_no_angle selfClosingNames 'e' _ (by decide))]
  rw [replacePass_cons_none (trySelfClosing_no_angle selfClosingNames 'f' _ (by decide))]
  rw [replacePass_append_no_angle (trySelfClosing_no_angle selfClosingNames) b _ _ hb1]
  rw [replacePass_cons_none f1]
  rw [replacePass_cons_none (trySelfClosing_no_angle selfClosingNames '/' _ (by decide))]
  rw [replacePass_cons_none (trySelfClosing_no_angle selfClosingNames 'i' _ (by decide))]
  rw [replacePass_cons_none (trySelfClosing_no_angle selfClosingNames 'n' _ (by decide))]
  rw [replacePass_cons_none (trySelfClosing_no_angle selfClosingNames 's' _ (by decide))]
  rw [replacePass_cons_none (trySelfClosing_no_angle selfClosingNames '>' _ (by decide))]
  rw [replacePass_cons_none (trySelfClosing_no_angle selfClosingNames '/' _ (by decide))]
  rw [replacePass_cons_none (trySelfClosing_no_angle selfClosingNames '>' _ (by decide))]
  rw [replacePass_no_angle (trySelfClosing_no_angle selfClosingNames) _ c hc]

theorem flatten_pass2_core {b c : List Char}
    (hb1 : ∀ d ∈ b, d ≠ '<') (hc : ∀ d ∈ c, d ≠ '<') :
    replacePass tryPaired
        ('<':: 'i':: 'n':: 's':: '>':: '<':: 'n':: 'o':: 't':: 'e':: 'R':: 'e':: 'f'::
          (b ++ ('<':: '/':: 'i':: 'n':: 's':: '>':: '/':: '>'::c))).length
        ('<':: 'i':: 'n':: 's':: '>':: '<':: 'n':: 'o':: 't':: 'e':: 'R':: 'e':: 'f'::
          (b ++ ('<':: '/':: 'i':: 'n':: 's':: '>':: '/':: '>'::c)))
      = '<':: 'n':: 'o':: 't':: 'e':: 'R':: 'e':: 'f'::(b ++ ('/':: '>'::c)) := by
  have hm : tryPaired
      ('<':: 'i':: 'n':: 's':: '>':: '<':: 'n':: 'o':: 't':: 'e':: 'R':: 'e':: 'f'::
        (b ++ ('<':: '/':: 'i':: 'n':: 's':: '>':: '/':: '>'::c)))
      = some ('<':: 'n':: 'o':: 't':: 'e':: 'R':: 'e':: 'f'::b, '/':: '>'::c) := by
    have h0 : tryPaired
        ('<':: 'i':: 'n':: 's':: '>':: '<':: 'n':: 'o':: 't':: 'e':: 'R':: 'e':: 'f'::
          (b ++ ('<':: '/':: 'i':: 'n':: 's':: '>':: '/':: '>'::c)))
        = findClosing ('<':: 'n':: 'o':: 't':: 'e':: 'R':: 'e':: 'f'::
            (b ++ ('<':: '/':: 'i':: 'n':: 's':: '>':: '/':: '>'::c))) := rfl
    rw [h0, findClosing_noteRef ('/':: '>'::c) hb1]
  simp only [List.length_cons, List.length_append]
  rw [replacePass_cons_some hm]
  rw [replacePass_cons_none (tryPaired_no_angle '/' _ (by decide))]
  rw [replacePass_cons_none (tryPaired_no_angle '>' _ (by decide))]
  rw [replacePass_no_angle tryPaired_no_angle _ c hc]
  rfl

theorem flatten_pass3_core {b c : List Char}
    (hb2 : ∀ d ∈ b, d ≠ '>')
    (hbw : b.head?.all (fun d => !isWordChar d) = true) (hc : ∀ d ∈ c, d ≠ '<') :
    replacePass (trySelfClosing [("noteRef").data])
        ('<':: 'n':: 'o':: 't':: 'e':: 'R':: 'e':: 'f'::(b ++ ('/':: '>'::c))).length
        ('<':: 'n':: 'o':: 't':: 'e':: 'R':: 'e':: 'f'::(b ++ ('/':: '>'::c)))
      = c := by
  simp only [List.length_cons, List.length_append]
  rw [replacePass_cons_some (trySelfClosing_noteRef_done hb2 hbw)]
  rw [replacePass_no_angle (trySelfClosing_no_angle [("noteRef").data]) _ c hc]
  simp

theorem flatten_pass1 {a b c : List Char}
    (ha : ∀ d ∈ a, d ≠ '<') (hb1 : ∀ d ∈ b, d ≠ '<') (hb2 : ∀ d ∈ b, d ≠ '>')
    (hbw : b.head?.all (fun d => !isWordChar d) = true) (hc : ∀ d ∈ c, d ≠ '<') :
    replacePass (trySelfClosing selfClosingNames)
        (a ++ ('<':: 'i':: 'n':: 's':: '>':: '<':: 'n':: 'o':: 't':: 'e':: 'R':: 'e':: 'f'::
          (b ++ ('<':: '/':: 'i':: 'n':: 's':: '>':: '/':: '>'::c)))).length
        (a ++ ('<':: 'i':: 'n':: 's':: '>':: '<':: 'n':: 'o':: 't':: 'e':: 'R':: 'e':: 'f'::
          (b ++ ('<':: '/':: 'i':: 'n':: 's':: '>':: '/':: '>'::c))))
      = a ++ ('<':: 'i':: 'n':: 's':: '>':: '<':: 'n':: 'o':: 't':: 'e':: 'R':: 'e':: 'f'::
          (b ++ ('<':: '/':: 'i':: 'n':: 's':: '>':: '/':: '>'::c))) := by
  rw [List.length_append,
    replacePass_append_no_angle (trySelfClosing_no_angle selfClosingNames) a _ _ ha,
    flatten_pass1_core hb1 hb2 hbw hc]

theorem flatten_pass2 {a b c : List Char}
    (ha : ∀ d ∈ a, d ≠ '<') (hb1 : ∀ d ∈ b, d ≠ '<') (hc : ∀ d ∈ c, d ≠ '<') :
    replacePass tryPaired
        (a ++ ('<':: 'i':: 'n':: 's':: '>':: '<':: 'n':: 'o':: 't':: 'e':: 'R':: 'e':: 'f'::
          (b ++ ('<':: '/':: 'i':: 'n':: 's':: '>':: '/':: '>'::c)))).length
        (a ++ ('<':: 'i':: 'n':: 's':: '>':: '<':: 'n':: 'o':: 't':: 'e':: 'R':: 'e':: 'f'::
          (b ++ ('<':: '/':: 'i':: 'n':: 's':: '>':: '/':: '>'::c))))
      = a ++ ('<':: 'n':: 'o':: 't':: 'e':: 'R':: 'e':: 'f'::(b ++ ('/':: '>'::c))) := by
  rw [List.length_append,
    replacePass_append_no_angle tryPaired_no_angle a _ _ ha,
    flatten_pass2_core hb1 hc]

theorem flatten_pass3 {a b c : List Char}
    (ha : ∀ d ∈ a, d ≠ '<') (hb2 : ∀ d ∈ b, d ≠ '>')
    (hbw : b.head?.all (fun d => !isWordChar d) = true) (hc : ∀ d ∈ c, d ≠ '<') :
    replacePass (trySelfClosing [("noteRef").data])
        (a ++ ('<':: 'n':: 'o':: 't':: 'e':: 'R':: 'e':: 'f'::(b ++ ('/':: '>'::c)))).length
        (a ++ ('<':: 'n':: 'o':: 't':: 'e':: 'R':: 'e':: 'f'::(b ++ ('/':: '>'::c))))
      = a ++ c := by
  rw [List.length_append,
    replacePass_append_no_angle (trySelfClosing_no_angle [("noteRef").data]) a _ _ ha,
    flatten_pass3_core hb2 hbw hc]

/-- Claim C6 fails as stated: neither `marker` nor even `noteRef` self-closing
elements are exhaustively removed by one application.  A `marker` materialised
inside a stripped paired element survives, because the follow-up pass removes
only `noteRef`; and a `noteRef` materialised by the follow-up pass's own
removal survives as well, because replacement output is never rescanned.  In
both cases the surviving text is a complete self-closing element (the match
attempt succeeds on it). -/
theorem flatten_selfclosing_survivors_counterexample :
    (flattenInlineElements ("<ins><marker</ins>/>") = ("<marker/>") ∧
      trySelfClosing [("marker").data] (("<marker/>").data) ≠ none) ∧
    (flattenInlineElements ("<note<ins><noteRef</ins>/>Ref/>") = ("<noteRef/>") ∧
      trySelfClosing [("noteRef").data] (("<noteRef/>").data) ≠ none) := by
  exact ⟨⟨by decide, by decide⟩, ⟨by decide, by decide⟩⟩

/-- Claim C6 (amended): one application of the flattener does remove a
self-closing `noteRef` nested inside a stripped paired element, in the general
nesting shape: for plain surrounding text `a` and `c` (no `<`), and attribute
text `b` with no angle brackets that does not start with a word character, the
input `a ++ "<ins><noteRef" ++ b ++ "</ins>/>" ++ c` flattens to exactly
`a ++ c`.  The guarantee is specific to `noteRef` — the follow-up pass covers
no other element kind, and text materialised by that pass's own removals is
never rescanned (see the counterexample). -/
theorem flatten_nested_noteRef_removed (a b c : List Char)
    (ha : ∀ d ∈ a, d ≠ '<') (hb1 : ∀ d ∈ b, d ≠ '<') (hb2 : ∀ d ∈ b, d ≠ '>')
    (hbw : b.head?.all (fun d => !isWordChar d) = true)
    (hc : ∀ d ∈ c, d ≠ '<') :
    flattenInlineElements ⟨a ++ (("<ins><noteRef").data ++ (b ++ (("</ins>/>").data ++ c)))⟩
      = ⟨a ++ c⟩ := by
  have key : flattenInlineElements (String.mk (a ++
        (('<':: 'i':: 'n':: 's':: '>':: '<':: 'n':: 'o':: 't':: 'e':: 'R':: 'e':: 'f'::[]) ++
          (b ++ (('<':: '/':: 'i':: 'n':: 's':: '>':: '/':: '>'::[]) ++ c)))))
      = String.mk (a ++ c) := by
    simp only [flattenInlineElements, List.cons_append, List.nil_append]
    simp only [flatten_pass1 ha hb1 hb2 hbw hc, flatten_pass2 ha hb1 hc,
      flatten_pass3 ha hb2 hbw hc]
  exact key

/-- Witness: the amended removal at a concrete nested `noteRef` with an
attribute and surrounding prose. -/
theorem flatten_nested_noteRef_removed_witness :
    flattenInlineElements
        ⟨(("See ").data) ++ (("<ins><noteRef").data ++ (((" href=1").data)
          ++ (("</ins>/>").data ++ ((" applies.").data))))⟩
      = ⟨(("See ").data) ++ ((" applies.").data)⟩ :=
  flatten_nested_noteRef_removed (("See ").data) ((" href=1").data) ((" applies.").data)
    (by decide) (by decide) (by decide) (by decide) (by decide)

/-! ## The search-query normalizer — `src/utils/fts-query.ts` -/

/-- `interface FtsQueryVariants`. -/
structure FtsQueryVariants where
  primary : String
  fallback : Option String := none
deriving DecidableEq

/-- A regex word boundary `\b` against the neighbouring character (`none` at
either end of the input). -/
def wordBoundary : Option Char → Bool
  | none => true
  | some c => !isWordChar c

/-- A word-bounded occurrence of the literal `w` anywhere in the input:
compiles the `\bAND\b`-style alternatives of `EXPLICIT_FTS_SYNTAX`.  `prev` is
the character before the current position. -/
def hasWordBounded (w : List Char) : Option Char → List Char → Bool
  | prev, [] =>
    match stripPrefixExact w [] with
    | some rest => wordBoundary prev && wordBoundary rest.head?
    | none => false
  | prev, c :: r =>
    (match stripPrefixExact w (c :: r) with
     | some rest => wordBoundary prev && wordBoundary rest.head?
     | none => false) || hasWordBounded w (some c) r

/-- `EXPLICIT_FTS_SYNTAX = /["""]|(\bAND\b)|(\bOR\b)|(\bNOT\b)|\*$/` — the
character class holds the double-quote character (three times), and `.test`
asks for a match anywhere in the string. -/
def hasExplicitFtsSyntax (l : List Char) : Bool :=
  l.any (fun c => c = '"')
  || hasWordBounded (("AND").data) none l
  || hasWordBounded (("OR").data) none l
  || hasWordBounded (("NOT").data) none l
  || (match l.getLast? with
      | some c => c = '*'
      | none => false)

/-- JS `split(/\s+/)`: maximal whitespace runs separate the fields; a leading
or trailing run contributes an empty field, and splitting the empty string
yields `[""]`. -/
def splitWsAux : Bool → List Char → List Char → List (List Char)
  | _, acc, [] => [acc.reverse]
  | inSep, acc, c :: r =>
    if jsWs c then
      if inSep then splitWsAux true acc r
      else acc.reverse :: splitWsAux true [] r
    else splitWsAux false (c :: acc) r

/-- JS `s.split(/\s+/)`. -/
def jsSplitWs (l : List Char) : List (List Char) := splitWsAux false [] l

/-- The per-token strip `t.replace(/[^\w\s-]/g, '')`: keep only word
characters, whitespace, and hyphens. -/
def stripToken (t : List Char) : List Char :=
  t.filter (fun c => isWordChar c || jsWs c || c = '-')

/-- `buildFtsQueryVariants` from `src/utils/fts-query.ts`: pass through
explicit FTS5 syntax; otherwise split on whitespace, drop empty fields, strip
each token, and build the quoted-prefix primary and the `OR`-of-prefixes
fallback; if the token list is empty the trimmed input is the sole variant.
(The emptiness filter runs before the strip, exactly as in the source.) -/
def buildFtsQueryVariants (query : String) : FtsQueryVariants :=
  let trimmed := jsTrimL query.data
  if hasExplicitFtsSyntax trimmed then { primary := ⟨trimmed⟩ }
  else
    let tokens := ((jsSplitWs trimmed).filter (fun t => 0 < t.length)).map stripToken
    if tokens.length = 0 then { primary := ⟨trimmed⟩ }
    else
      { primary := ⟨List.intercalate [' '] (tokens.map (fun t => '"' :: t ++ ['"', '*']))⟩,
        fallback := some ⟨List.intercalate ((" OR ").data) (tokens.map (fun t => t ++ ['*']))⟩ }

/-! ## Claim theorems for the normalizer (C8) -/

/-- Claim C8 fails as stated: the query `!!!` has no explicit FTS syntax and
every token strips to the empty string, yet the result is not the trimmed
original as sole variant — the length filter runs before the strip, so the
empty stripped token survives and yields primary `""*` with fallback `*`. -/
theorem fts_empty_tokens_counterexample :
    hasExplicitFtsSyntax (jsTrimL (("!!!").data)) = false ∧
    ((jsSplitWs (jsTrimL (("!!!").data))).map stripToken).all
      (fun t => t.isEmpty) = true ∧
    buildFtsQueryVariants ("!!!") ≠ { primary := ("!!!"), fallback := none } ∧
    buildFtsQueryVariants ("!!!") = { primary := ("\"\"*"), fallback := some ("*") } := by
  exact ⟨by decide, by decide, by decide, by decide⟩

/-- Claim C8 (amended): the empty-token guard fires only when the trimmed
query is empty — splitting a nonempty trimmed string always yields a nonempty
field, and the emptiness filter runs before stripping — and in that case the
trimmed original (the empty string) is returned as the sole variant with no
fallback.  A nonempty query whose tokens all strip to nothing instead
produces quoted-empty prefix expressions (see the counterexample). -/
theorem fts_empty_query_sole_variant (q : String) (h : jsTrimL q.data = []) :
    buildFtsQueryVariants q = { primary := jsTrim q, fallback := none } := by
  simp only [buildFtsQueryVariants, jsTrim, h]
  rfl

/-- Witness: a whitespace-only query returns its (empty) trimmed form as sole
variant. -/
theorem fts_empty_query_sole_variant_witness :
    buildFtsQueryVariants ("   ") = { primary := jsTrim ("   "), fallback := none } :=
  fts_empty_query_sole_variant ("   ") (by decide)

/-! ## The feed-index reader — `parseAtomFeed` in `scripts/lib/fetcher.ts`

The XML text is parsed by the external library `fast-xml-parser`, which is out
of scope; the embedding starts from the parsed feed object.  `extractText` on
the `title`/`id`/`updated` children is modelled by fields that already hold
the extracted text (`none` for a missing or text-free child). -/

/-- A `link` element with its `@_rel` and `@_href` attributes. -/
structure AtomLink where
  rel : Option String := none
  href : Option String := none
deriving DecidableEq

/-- `entry.link` as seen by `extractLink`: absent/falsy, a single object, or
an array. -/
inductive LinkField
  | missing
  | single (l : AtomLink)
  | array (ls : List AtomLink)
deriving DecidableEq

/-- One parsed `entry` element. -/
structure AtomEntry where
  title : Option String := none
  id : Option String := none
  link : LinkField := .missing
  updated : Option String := none
deriving DecidableEq

/-- The parsed feed object: its entry list, the feed-level `link` value when
it is an array (`none` models a missing or non-array value — `Array.isArray`
guards its only use), and the optional `openSearch:totalResults` text. -/
structure AtomFeed where
  entry : List AtomEntry := []
  link : Option (List AtomLink) := none
  totalResults : Option String := none
deriving DecidableEq

/-- `interface ActIndexEntry`. -/
structure ActIndexEntry where
  title : String
  year : Nat
  number : Nat
  url : String
  updated : String
deriving DecidableEq

/-- `interface AtomFeedResult`; `totalResults` is optional and `none` also
models a `NaN` parse. -/
structure AtomFeedResult where
  entries : List ActIndexEntry
  hasNextPage : Bool
  totalResults : Option Nat := none
deriving DecidableEq

/-- `extractLink`: in an array prefer the first `self` or `alternate` link,
else the first element's `href`; a single object yields its `href`; otherwise
the empty string.  Missing `href` attributes default to the empty string. -/
def extractLink : LinkField → String
  | .missing => ""
  | .array ls =>
    match ls.find? (fun l => l.rel == some ("self") || l.rel == some ("alternate")) with
    | some l => l.href.getD ""
    | none =>
      match ls.head? with
      | some l => l.href.getD ""
      | none => ""
  | .single l => l.href.getD ""

/-- A match attempt of `\/ukpga\/(\d{4})\/(\d+)` at the current position:
the literal `/ukpga/`, exactly four digits, `/`, then one or more digits
(greedy).  Returns `(parseInt year, parseInt number)`. -/
def tryUkpgaAt (l : List Char) : Option (Nat × Nat) :=
  match stripPrefixExact (("/ukpga/").data) l with
  | none => none
  | some r =>
    let y4 := r.take 4
    if y4.length = 4 && y4.all isDigitC then
      match r.drop 4 with
      | '/' :: r2 =>
        let ds := r2.takeWhile isDigitC
        if ds.isEmpty then none else some (digitsToNat y4, digitsToNat ds)
      | _ => none
    else none

/-- `url.match(/\/ukpga\/(\d{4})\/(\d+)/)`: the leftmost position at which the
pattern matches. -/
def ukpgaMatch : List Char → Option (Nat × Nat)
  | [] => none
  | c :: r =>
    match tryUkpgaAt (c :: r) with
    | some yn => some yn
    | none => ukpgaMatch r

/-- `replace(/\s+/g, ' ')`: collapse each whitespace run to a single space. -/
def collapseWsAux : Bool → List Char → List Char
  | _, [] => []
  | prevWs, c :: r =>
    if jsWs c then
      if prevWs then collapseWsAux true r
      else ' ' :: collapseWsAux true r
    else c :: collapseWsAux false r

/-- `replace(/\s+/g, ' ')` from the start of the string. -/
def collapseWs (l : List Char) : List Char := collapseWsAux false l

/-- `parseAtomFeed` from `scripts/lib/fetcher.ts`, over the parsed feed
object: keep entries with a nonempty title whose link-or-id matches
`/ukpga/<year>/<number>`; `hasNextPage` iff the feed-level link array holds a
`rel="next"` link, forced to `false` when no entries were extracted. -/
def parseAtomFeed (feed : AtomFeed) : AtomFeedResult :=
  let entries := feed.entry.filterMap fun e =>
    match e.title with
    | none => none
    | some title =>
      if title.isEmpty then none
      else
        let id := e.id.getD ""
        let link := extractLink e.link
        let url := if link.isEmpty then id else link
        match ukpgaMatch url.data with
        | none => none
        | some (year, number) =>
          some { title := ⟨jsTrimL (collapseWs title.data)⟩,
                 year := year, number := number,
                 url := ⟨(("https://www.legislation.gov.uk/ukpga/").data
                   ++ natToDec year ++ '/' :: natToDec number)⟩,
                 updated := e.updated.getD "" }
  let next :=
    match feed.link with
    | some links => links.any (fun l => l.rel == some ("next"))
    | none => false
  { entries := entries,
    hasNextPage := if entries.isEmpty then false else next,
    totalResults :=
      match feed.totalResults with
      | none => none
      | some t =>
        if t.isEmpty then none
        else
          let ds := (t.data.dropWhile jsWs).takeWhile isDigitC
          if ds.isEmpty then none else some (digitsToNat ds) }

/-! ## Claim theorem for the feed-index reader (C7) -/

/-- Claim C7: whenever `parseAtomFeed` returns an empty entries list it
returns `hasNextPage = false`, regardless of any next-page relation link on
the page. -/
theorem feed_no_entries_no_next (feed : AtomFeed)
    (h : (parseAtomFeed feed).entries = []) :
    (parseAtomFeed feed).hasNextPage = false := by
  simp only [parseAtomFeed] at h ⊢
  rw [h]
  rfl

/-- A feed page with a stale next-page link whose entries are all invalid
(missing title, empty title, or no recognisable document identifier). -/
def demoFeedNoEntries : AtomFeed :=
  { entry :=
      [ { title := none },
        { title := some (""), id := some ("https://www.legislation.gov.uk/ukpga/2018/12") },
        { title := some ("Data Protection Act 2018"),
          id := some ("https://www.legislation.gov.uk/id/statute") } ],
    link := some [ { rel := some ("next"),
                     href := some ("https://www.legislation.gov.uk/ukpga/data.feed?page=3") } ],
    totalResults := some ("4247") }

/-- Witness: on the stale-next-link page with no valid entries the reader
reports no next page. -/
theorem feed_no_entries_no_next_witness :
    (parseAtomFeed demoFeedNoEntries).entries = [] ∧
    (parseAtomFeed demoFeedNoEntries).hasNextPage = false :=
  ⟨by decide, feed_no_entries_no_next demoFeedNoEntries (by decide)⟩

/-! ## The citation validator — `src/citation/validator.ts`

The SQLite store is modelled as in-memory tables.  `LIKE` is ASCII
case-insensitive; `=` on text columns is case-sensitive. -/

/-- A `legal_documents` row (the columns the validator selects). -/
structure LegalDocument where
  id : String
  title : String
  status : String
deriving DecidableEq

/-- A `legal_provisions` row (the columns the validator consults). -/
structure LegalProvision where
  document_id : String
  «section» : String
deriving DecidableEq

/-- The database as the validator sees it. -/
structure Db where
  legal_documents : List LegalDocument
  legal_provisions : List LegalProvision
deriving DecidableEq

/-- `interface ValidationResult`. -/
structure ValidationResult where
  citation : ParsedCitation
  document_exists : Bool
  provision_exists : Bool
  document_title : Option String := none
  status : Option String := none
  warnings : List String
deriving DecidableEq

/-- SQLite `LIKE` matching of a pattern against a text: `%` matches any run
of characters (including none), `_` matches exactly one character, any other
pattern character matches itself up to ASCII case (SQLite's default `LIKE` is
case-insensitive for ASCII only).  Fuelled: every recursive call shrinks the
pattern length plus the text length, so that sum plus one always suffices. -/
def likeMatchAux : Nat → List Char → List Char → Bool
  | 0, _, _ => false
  | _ + 1, [], s => s.isEmpty
  | fuel + 1, p :: ps, s =>
    if p = '%' then
      likeMatchAux fuel ps s ||
        (match s with
         | [] => false
         | _ :: s2 => likeMatchAux fuel (p :: ps) s2)
    else
      match s with
      | [] => false
      | c :: s2 =>
        if p = '_' then likeMatchAux fuel ps s2
        else ciEq p c && likeMatchAux fuel ps s2

/-- SQLite `title LIKE '%<t>%<y>%'`: the pattern is assembled by string
interpolation, so `%` and `_` characters inside the interpolated title (and
year) act as `LIKE` wildcards, not as literal text. -/
def likeTitleYear (t y : List Char) (title : List Char) : Bool :=
  likeMatchAux (t.length + y.length + title.length + 4)
    (('%' :: t) ++ ('%' :: y) ++ ['%']) title

/-- The body of `validateCitation` applied to an already-parsed citation.
The document lookup is `SELECT id, title, status FROM legal_documents WHERE
title LIKE ? LIMIT 1` with pattern `` %${parsed.title}%${parsed.year ?? ''}% ``
(a missing title interpolates as the text `undefined`, as JS templates do);
`LIMIT 1` takes the first matching row.  The provision lookup compares
`document_id` and the `section` column for equality.  Warnings accumulate in
source order: the repealed warning, then the missing-section warning. -/
def validateParsedCitation (db : Db) (parsed : ParsedCitation) : ValidationResult :=
  if !parsed.valid then
    { citation := parsed, document_exists := false, provision_exists := false,
      warnings := [parsed.error.getD ("Invalid citation format")] }
  else
    let titleStr := parsed.title.getD ("undefined")
    let yearStr := (parsed.year.map natToDecS).getD ("")
    match db.legal_documents.find?
        (fun d => likeTitleYear titleStr.data yearStr.data d.title.data) with
    | none =>
      { citation := parsed, document_exists := false, provision_exists := false,
        warnings := [("Document \"") ++ titleStr ++ (" ")
          ++ (parsed.year.map natToDecS).getD ("undefined")
          ++ ("\" not found in database")] }
    | some doc =>
      let warnings1 :=
        if doc.status = ("repealed") then [("This statute has been repealed")] else []
      let pe :=
        match parsed.«section» with
        | some sec =>
          ((db.legal_provisions.find?
            (fun p : LegalProvision => p.document_id == doc.id && p.«section» == sec)).isSome,
           sec)
        | none => ((false : Bool), ("" : String))
      let warnings2 :=
        match parsed.«section» with
        | some sec =>
          if pe.1 then []
          else [("Section ") ++ sec ++ (" not found in ") ++ doc.title]
        | none => []
      { citation := parsed, document_exists := true, provision_exists := pe.1,
        document_title := some doc.title, status := some doc.status,
        warnings := warnings1 ++ warnings2 }

/-- A store holding only the Data Protection Act 2018. -/
def demoDb : Db :=
  { legal_documents :=
      [ { id := ("ukpga-2018-12"), title := ("Data Protection Act 2018"),
          status := ("in_force") } ],
    legal_provisions :=
      [ { document_id := ("ukpga-2018-12"), «section» := ("3") } ] }

/-- Claim C10: validation ignores subsection and paragraph — for two valid
parsed citations agreeing on title, year, and section, validation against the
same store returns identical `document_exists`, `provision_exists`, `status`,
and `warnings`; provision existence is decided by the section field alone. -/
theorem validate_ignores_subsection_paragraph (db : Db) (c1 c2 : ParsedCitation)
    (h1 : c1.valid = true) (h2 : c2.valid = true)
    (ht : c1.title = c2.title) (hy : c1.year = c2.year)
    (hs : c1.«section» = c2.«section») :
    (validateParsedCitation db c1).document_exists
        = (validateParsedCitation db c2).document_exists ∧
    (validateParsedCitation db c1).provision_exists
        = (validateParsedCitation db c2).provision_exists ∧
    (validateParsedCitation db c1).status = (validateParsedCitation db c2).status ∧
    (validateParsedCitation db c1).warnings = (validateParsedCitation db c2).warnings := by
  simp only [validateParsedCitation, h1, h2, ht, hy, hs]
  cases hfind : db.legal_documents.find? (fun d =>
      likeTitleYear ((c2.title.getD ("undefined")).data)
        (((Option.map natToDecS c2.year).getD ("")).data) d.title.data) with
  | none => exact ⟨rfl, rfl, rfl, rfl⟩
  | some doc => exact ⟨rfl, rfl, rfl, rfl⟩

/-- The parsed citation of DPA 2018 section 3(1)(a). -/
def cWithSub : ParsedCitation :=
  mkValidCitation (("Data Protection Act").data) 2018 ['3'] (some ['1']) (some 'a')

/-- The parsed citation of DPA 2018 section 3 with no subsection or
paragraph. -/
def cNoSub : ParsedCitation :=
  mkValidCitation (("Data Protection Act").data) 2018 ['3'] none none

/-- Witness: two valid citations of the Data Protection Act 2018 section 3
differing only in subsection and paragraph validate identically. -/
theorem validate_ignores_subsection_paragraph_witness :
    (validateParsedCitation demoDb cWithSub).document_exists
        = (validateParsedCitation demoDb cNoSub).document_exists ∧
    (validateParsedCitation demoDb cWithSub).provision_exists
        = (validateParsedCitation demoDb cNoSub).provision_exists ∧
    (validateParsedCitation demoDb cWithSub).status
        = (validateParsedCitation demoDb cNoSub).status ∧
    (validateParsedCitation demoDb cWithSub).warnings
        = (validateParsedCitation demoDb cNoSub).warnings :=
  validate_ignores_subsection_paragraph demoDb cWithSub cNoSub
    (by decide) (by decide) (by decide) (by decide) (by decide)

/-! ## The markup tree walker — `extractProvisions` / `processElements` /
`processSections` / `buildProvisionRef` / `extractContentText` /
`extractAllText` in `scripts/lib/fetcher.ts`

`fast-xml-parser` (an external library) produces the object tree; the
embedding is a typed rendering of exactly the fields the walker reads.
`extractText` applied to the `num` and `heading` children is modelled by
fields already holding the extracted text (`none` for a missing child), and
the attribute `@_eId` by the `eId` field.  `content`, `p`, and `block` items
may be strings or objects, hence `String ⊕ AknNode`.  The insertion order of
object entries (used by `extractAllText`) is fixed as the field declaration
order. -/

/-- A node of the parsed Akoma Ntoso object tree. -/
inductive AknNode where
  | mk (eId num heading text : Option String)
       (content p block : List (Sum String AknNode))
       (intro wrapUp : Option AknNode)
       (paragraph part chapter «section» hcontainer subsection : List AknNode)

def AknNode.eId : AknNode → Option String
  | .mk e _ _ _ _ _ _ _ _ _ _ _ _ _ _ => e

def AknNode.num : AknNode → Option String
  | .mk _ n _ _ _ _ _ _ _ _ _ _ _ _ _ => n

def AknNode.heading : AknNode → Option String
  | .mk _ _ h _ _ _ _ _ _ _ _ _ _ _ _ => h

def AknNode.text : AknNode → Option String
  | .mk _ _ _ t _ _ _ _ _ _ _ _ _ _ _ => t

def AknNode.content : AknNode → List (Sum String AknNode)
  | .mk _ _ _ _ c _ _ _ _ _ _ _ _ _ _ => c

def AknNode.p : AknNode → List (Sum String AknNode)
  | .mk _ _ _ _ _ x _ _ _ _ _ _ _ _ _ => x

def AknNode.block : AknNode → List (Sum String AknNode)
  | .mk _ _ _ _ _ _ b _ _ _ _ _ _ _ _ => b

def AknNode.intro : AknNode → Option AknNode
  | .mk _ _ _ _ _ _ _ i _ _ _ _ _ _ _ => i

def AknNode.wrapUp : AknNode → Option AknNode
  | .mk _ _ _ _ _ _ _ _ w _ _ _ _ _ _ => w

def AknNode.paragraph : AknNode → List AknNode
  | .mk _ _ _ _ _ _ _ _ _ pa _ _ _ _ _ => pa

def AknNode.part : AknNode → List AknNode
  | .mk _ _ _ _ _ _ _ _ _ _ pt _ _ _ _ => pt

def AknNode.chapter : AknNode → List AknNode
  | .mk _ _ _ _ _ _ _ _ _ _ _ ch _ _ _ => ch

def AknNode.«section» : AknNode → List AknNode
  | .mk _ _ _ _ _ _ _ _ _ _ _ _ s _ _ => s

def AknNode.hcontainer : AknNode → List AknNode
  | .mk _ _ _ _ _ _ _ _ _ _ _ _ _ h _ => h

def AknNode.subsection : AknNode → List AknNode
  | .mk _ _ _ _ _ _ _ _ _ _ _ _ _ _ su => su

mutual

/-- Number of element nodes in a tree: an upper bound on its depth, used as
fuel for the tree recursions (each recursive step descends into a strict
subtree, so this fuel is always sufficient). -/
def aknSize : AknNode → Nat
  | .mk _ _ _ _ content p block intro wrapUp paragraph part chapter sec hcont subsec =>
    1 + aknSizeSum content + aknSizeSum p + aknSizeSum block
      + aknSizeOpt intro + aknSizeOpt wrapUp
      + aknSizeList paragraph + aknSizeList part + aknSizeList chapter
      + aknSizeList sec + aknSizeList hcont + aknSizeList subsec

/-- Total size of a node list. -/
def aknSizeList : List AknNode → Nat
  | [] => 0
  | n :: ns => aknSize n + aknSizeList ns

/-- Total size of a mixed string-or-node list. -/
def aknSizeSum : List (Sum String AknNode) → Nat
  | [] => 0
  | .inl _ :: xs => aknSizeSum xs
  | .inr n :: xs => aknSize n + aknSizeSum xs

/-- Size of an optional node. -/
def aknSizeOpt : Option AknNode → Nat
  | none => 0
  | some n => aknSize n

end

/-- `parts.filter(Boolean).join(' ').replace(/\s+/g, ' ').trim()`. -/
def joinParts (parts : List (List Char)) : List Char :=
  jsTrimL (collapseWs (List.intercalate [' '] (parts.filter (fun t => !t.isEmpty))))

/-- An optional text field as a parts list. -/
def optStr : Option String → List (List Char)
  | some s => [s.data]
  | none => []

/-- `extractAllText`: every entry except attributes, recursively — direct
text, the text of `num`/`heading`, string or object items of
`content`/`p`/`block`, `intro`/`wrapUp`, and all element-node children — in
field order, joined and whitespace-normalised. -/
def extractAllTextAux : Nat → AknNode → List Char
  | 0, _ => []
  | fuel + 1, n =>
    joinParts
      (optStr n.num ++ optStr n.heading ++ optStr n.text
        ++ (n.content.map fun
            | .inl s => s.data
            | .inr m => extractAllTextAux fuel m)
        ++ (n.p.map fun
            | .inl s => s.data
            | .inr m => extractAllTextAux fuel m)
        ++ (n.block.map fun
            | .inl s => s.data
            | .inr m => extractAllTextAux fuel m)
        ++ (match n.intro with
            | some m => [extractAllTextAux fuel m]
            | none => [])
        ++ (match n.wrapUp with
            | some m => [extractAllTextAux fuel m]
            | none => [])
        ++ ((n.paragraph ++ n.part ++ n.chapter ++ n.«section» ++ n.hcontainer
              ++ n.subsection).map (extractAllTextAux fuel)))

/-- `extractAllText` with always-sufficient fuel. -/
def extractAllText (n : AknNode) : List Char := extractAllTextAux (aknSize n) n

/-- `extractContentText`: direct text; `content` items (strings kept, objects
recursed); `p` and `block` items (strings kept, objects flattened with
`extractAllText`); `intro` and `wrapUp`; then numbered `paragraph` children —
each contributing `num + ' ' + own content` when its content is nonempty
after trimming (an empty `num` adds no prefix). -/
def extractContentTextAux : Nat → AknNode → List Char
  | 0, _ => []
  | fuel + 1, n =>
    joinParts
      (optStr n.text
        ++ (n.content.map fun
            | .inl s => s.data
            | .inr m => extractContentTextAux fuel m)
        ++ (n.p.map fun
            | .inl s => s.data
            | .inr m => extractAllText m)
        ++ (n.block.map fun
            | .inl s => s.data
            | .inr m => extractAllText m)
        ++ (match n.intro with
            | some m => [extractContentTextAux fuel m]
            | none => [])
        ++ (match n.wrapUp with
            | some m => [extractContentTextAux fuel m]
            | none => [])
        ++ (n.paragraph.filterMap fun m =>
            let pc := jsTrimL (extractContentTextAux fuel m)
            if pc.isEmpty then none
            else some ((match m.num with
                        | some s => if s.isEmpty then [] else s.data ++ [' ']
                        | none => []) ++ pc)))

/-- `extractContentText` with always-sufficient fuel. -/
def extractContentText (n : AknNode) : List Char := extractContentTextAux (aknSize n) n

/-- A match attempt of `section-(\d+)$` at the current position: the literal
`section-` followed by one or more digits running to the end. -/
def trySectionEnd1 (l : List Char) : Option (List Char) :=
  match stripPrefixExact (("section-").data) l with
  | some r => if !r.isEmpty && r.all isDigitC then some r else none
  | none => none

/-- `eId.match(/section-(\d+)$/)`: leftmost occurrence. -/
def sectionEndMatch : List Char → Option (List Char)
  | [] => none
  | c :: r =>
    match trySectionEnd1 (c :: r) with
    | some d => some d
    | none => sectionEndMatch r

/-- A match attempt of `section-(\d+)-(\d+)$`: `section-`, greedy digits, `-`,
then digits running to the end. -/
def trySectionSub1 (l : List Char) : Option (List Char × List Char) :=
  match stripPrefixExact (("section-").data) l with
  | some r =>
    let d1 := r.takeWhile isDigitC
    match r.dropWhile isDigitC with
    | '-' :: r2 =>
      if !d1.isEmpty && !r2.isEmpty && r2.all isDigitC then some (d1, r2) else none
    | _ => none
  | none => none

/-- `eId.match(/section-(\d+)-(\d+)$/)`: leftmost occurrence. -/
def sectionSubMatch : List Char → Option (List Char × List Char)
  | [] => none
  | c :: r =>
    match trySectionSub1 (c :: r) with
    | some d => some d
    | none => sectionSubMatch r

/-- `buildProvisionRef` from `scripts/lib/fetcher.ts`: an eId of the form
`…section-<n>` gives `s<n>`, `…section-<n>-<m>` gives `s<n>(<m>)`, any other
nonempty eId is kept as-is; with no eId, the cleaned `num` (dots and
whitespace stripped) is used, prefixed `s` for sections; otherwise
`<elementType>-unknown`. -/
def buildProvisionRef (eId : String) (elementType : String) (num : Option String) :
    String :=
  if !eId.isEmpty then
    match sectionEndMatch eId.data with
    | some d => ⟨'s' :: d⟩
    | none =>
      match sectionSubMatch eId.data with
      | some (d1, d2) => ⟨'s' :: d1 ++ '(' :: d2 ++ [')']⟩
      | none => eId
  else
    match num with
    | some n =>
      if n.isEmpty then ⟨elementType.data ++ (("-unknown").data)⟩
      else
        let cleaned := n.data.filter (fun c => !(c = '.' || jsWs c))
        if elementType = ("section") then ⟨'s' :: cleaned⟩ else ⟨cleaned⟩
    | none => ⟨elementType.data ++ (("-unknown").data)⟩

/-- `interface ParsedProvision`. -/
structure ParsedProvision where
  provision_ref : String
  «section» : String
  title : String
  content : String
deriving DecidableEq

/-- The record a section-like element contributes when its extracted content
is nonempty after trimming: this is the push that both `processElements` (for
`hcontainer`) and `processSections` (for `section`) perform, with
`section: num ?? provisionRef` and `title: heading ?? ''`. -/
def elemRecord (elementName : String) (el : AknNode) : Option ParsedProvision :=
  let eId := el.eId.getD ""
  let provisionRef := buildProvisionRef eId elementName el.num
  let content := extractContentText el
  if (jsTrimL content).isEmpty then none
  else
    some { provision_ref := provisionRef,
           «section» := el.num.getD provisionRef,
           title := el.heading.getD "",
           content := ⟨jsTrimL content⟩ }

/-- The record a subsection contributes when its own content is nonempty:
`provision_ref` from its own eId/num, `section` rendered as
`<parent num>(<sub num>)` (absent numbers render empty), and the parent
section's heading as title. -/
def subsectionRecord (parentNum parentHeading : Option String) (sub : AknNode) :
    Option ParsedProvision :=
  let subEId := sub.eId.getD ""
  let subContent := extractContentText sub
  if (jsTrimL subContent).isEmpty then none
  else
    some { provision_ref := buildProvisionRef subEId ("subsection") sub.num,
           «section» := ⟨(parentNum.getD "").data ++ '(' :: (sub.num.getD "").data ++ [')']⟩,
           title := parentHeading.getD "",
           content := ⟨jsTrimL subContent⟩ }

/-- The dynamic child-list lookup `node[elementName]` for the element names
the walker passes. -/
def elementsOf (node : AknNode) (name : String) : List AknNode :=
  if name = ("part") then node.part
  else if name = ("chapter") then node.chapter
  else if name = ("section") then node.«section»
  else if name = ("subsection") then node.subsection
  else if name = ("hcontainer") then node.hcontainer
  else []

/-- `processSections(node, provisions, parentContext)`: for each `section`
child, push its record (if any), then push a record per `subsection` child
with nonempty content.  Pushing is modelled by appending to the accumulated
list; `parentContext` is accepted and unused, as in the source. -/
def processSections (node : AknNode) (provisions : List ParsedProvision)
    (parentContext : String) : List ParsedProvision :=
  (elementsOf node ("section")).foldl (fun acc el =>
    let acc1 :=
      match elemRecord ("section") el with
      | some r => acc ++ [r]
      | none => acc
    el.subsection.foldl (fun a sub =>
      match subsectionRecord el.num el.heading sub with
      | some r => a ++ [r]
      | none => a) acc1) provisions

/-- `processElements(node, elementName, provisions, parentContext)`,
parameterised by the recursive walk (`extractProvisions` in the source): for
each `node[elementName]` child, build the context string, push the child's
own record when the element kind is section-like, then recurse into the
child. -/
def processElementsWith
    (walk : AknNode → List ParsedProvision → String → List ParsedProvision)
    (node : AknNode) (elementName : String) (provisions : List ParsedProvision)
    (parentContext : String) : List ParsedProvision :=
  (elementsOf node elementName).foldl (fun acc el =>
    let context :=
      if parentContext.isEmpty
      then elementName ++ (" ") ++ el.num.getD ""
      else parentContext ++ (" > ") ++ elementName ++ (" ") ++ el.num.getD ""
    let acc1 :=
      if elementName = ("section") ∨ elementName = ("hcontainer") then
        match elemRecord elementName el with
        | some r => acc ++ [r]
        | none => acc
      else acc
    walk el acc1 context) provisions

/-- `extractProvisions(node, provisions, parentContext)`: parts, then
chapters, then sections directly in the node, then `hcontainer` elements;
fuelled (the recursion descends strictly into subterms, so `sizeOf` fuel is
always sufficient). -/
def extractProvisionsAux : Nat → AknNode → List ParsedProvision → String →
    List ParsedProvision
  | 0, _, acc, _ => acc
  | fuel + 1, node, acc, parentContext =>
    let acc1 := processElementsWith (extractProvisionsAux fuel) node ("part") acc
      parentContext
    let acc2 := processElementsWith (extractProvisionsAux fuel) node ("chapter") acc1
      parentContext
    let acc3 := processSections node acc2 parentContext
    processElementsWith (extractProvisionsAux fuel) node ("hcontainer") acc3 parentContext

/-- `extractProvisions(body, provisions, '')` with always-sufficient fuel. -/
def extractProvisionsFn (body : AknNode) : List ParsedProvision :=
  extractProvisionsAux (aknSize body) body [] ("")

/-- The provision extraction of `parseAknXml`: walk the body when present.
(XML-text parsing and the metadata fields of `ParsedAct` are upstream of this
slice; the walker receives the parsed body object.) -/
def parseAknXmlProvisions (body : Option AknNode) : List ParsedProvision :=
  match body with
  | some b => extractProvisionsFn b
  | none => []

/-! ## Claim theorems for the tree walker (C1 and C4) -/

/-- The compositional statement of the order the walker actually emits: at
each level all `part` subtrees are visited, then all `chapter` subtrees, then
all `section` elements (each section's own record before its subsection
records), then all `hcontainer` elements — within each kind in list order.
This is a kind-grouped pre-order, not the source document's interleaved order:
the parsed object model has already grouped children by element kind. -/
def kindWalkAux : Nat → AknNode → List ParsedProvision
  | 0, _ => []
  | fuel + 1, node =>
    (node.part.map (kindWalkAux fuel)).flatten
    ++ (node.chapter.map (kindWalkAux fuel)).flatten
    ++ (node.«section».map (fun el =>
        (match elemRecord ("section") el with
         | some r => [r]
         | none => [])
        ++ el.subsection.filterMap (subsectionRecord el.num el.heading))).flatten
    ++ (node.hcontainer.map (fun el =>
        (match elemRecord ("hcontainer") el with
         | some r => [r]
         | none => [])
        ++ kindWalkAux fuel el)).flatten

/-- The kind-grouped walk, with the same fuel policy as the implementation. -/
def kindGroupedWalk (body : AknNode) : List ParsedProvision :=
  kindWalkAux (aknSize body) body

theorem subsFoldl_eq (pn ph : Option String) :
    ∀ (subs : List AknNode) (a : List ParsedProvision),
      subs.foldl (fun a sub =>
        match subsectionRecord pn ph sub with
        | some r => a ++ [r]
        | none => a) a
      = a ++ subs.filterMap (subsectionRecord pn ph) := by
  intro subs
  induction subs with
  | nil => intro a; simp
  | cons sub rest ih =>
    intro a
    simp only [List.foldl_cons]
    rw [ih]
    cases h : subsectionRecord pn ph sub with
    | none => simp [List.filterMap_cons, h]
    | some r => simp [List.filterMap_cons, h]

theorem secFoldl_eq :
    ∀ (l : List AknNode) (a : List ParsedProvision),
      l.foldl (fun acc el =>
        el.subsection.foldl (fun a sub =>
          match subsectionRecord el.num el.heading sub with
          | some r => a ++ [r]
          | none => a)
          (match elemRecord ("section") el with
           | some r => acc ++ [r]
           | none => acc)) a
      = a ++ (l.map (fun el =>
          (match elemRecord ("section") el with
           | some r => [r]
           | none => [])
          ++ el.subsection.filterMap (subsectionRecord el.num el.heading))).flatten := by
  intro l
  induction l with
  | nil => intro a; simp
  | cons el rest ih =>
    intro a
    simp only [List.foldl_cons]
    rw [subsFoldl_eq, ih]
    cases h : elemRecord ("section") el with
    | none => simp [h, List.append_assoc]
    | some r => simp [h, List.append_assoc]

theorem processSections_eq (node : AknNode) (provisions : List ParsedProvision)
    (ctx : String) :
    processSections node provisions ctx
      = provisions ++ (node.«section».map (fun el =>
          (match elemRecord ("section") el with
           | some r => [r]
           | none => [])
          ++ el.subsection.filterMap (subsectionRecord el.num el.heading))).flatten := by
  have he : elementsOf node ("section") = node.«section» := rfl
  rw [processSections, he]
  exact secFoldl_eq node.«section» provisions

theorem elemFoldl_eq
    (walk : AknNode → List ParsedProvision → String → List ParsedProvision)
    (spec : AknNode → List ParsedProvision)
    (hwalk : ∀ el a c, walk el a c = a ++ spec el)
    (ename pctx : String) :
    ∀ (l : List AknNode) (a : List ParsedProvision),
      l.foldl (fun acc el =>
        walk el
          (if ename = ("section") ∨ ename = ("hcontainer") then
            match elemRecord ename el with
            | some r => acc ++ [r]
            | none => acc
          else acc)
          (if pctx.isEmpty
           then ename ++ (" ") ++ el.num.getD ""
           else pctx ++ (" > ") ++ ename ++ (" ") ++ el.num.getD "")) a
      = a ++ (l.map (fun el =>
          (if ename = ("section") ∨ ename = ("hcontainer") then
            match elemRecord ename el with
            | some r => [r]
            | none => []
          else [])
          ++ spec el)).flatten := by
  intro l
  induction l with
  | nil => intro a; simp
  | cons el rest ih =>
    intro a
    simp only [List.foldl_cons]
    rw [hwalk, ih]
    by_cases hn : ename = ("section") ∨ ename = ("hcontainer")
    · cases h : elemRecord ename el with
      | none => simp [hn, h, List.append_assoc]
      | some r => simp [hn, h, List.append_assoc]
    · simp [hn, List.append_assoc]

theorem processElementsWith_eq
    (walk : AknNode → List ParsedProvision → String → List ParsedProvision)
    (spec : AknNode → List ParsedProvision)
    (hwalk : ∀ el a c, walk el a c = a ++ spec el)
    (node : AknNode) (ename : String) (a : List ParsedProvision) (pctx : String) :
    processElementsWith walk node ename a pctx
      = a ++ ((elementsOf node ename).map (fun el =>
          (if ename = ("section") ∨ ename = ("hcontainer") then
            match elemRecord ename el with
            | some r => [r]
            | none => []
          else [])
          ++ spec el)).flatten := by
  rw [processElementsWith]
  exact elemFoldl_eq walk spec hwalk ename pctx (elementsOf node ename) a

theorem extractProvisionsAux_eq :
    ∀ (fuel : Nat) (node : AknNode) (acc : List ParsedProvision) (ctx : String),
      extractProvisionsAux fuel node acc ctx = acc ++ kindWalkAux fuel node := by
  intro fuel
  induction fuel with
  | zero =>
    intro node acc ctx
    simp [extractProvisionsAux, kindWalkAux]
  | succ f ih =>
    intro node acc ctx
    have hwalk : ∀ el a c, extractProvisionsAux f el a c = a ++ kindWalkAux f el :=
      fun el a c => ih el a c
    simp only [extractProvisionsAux]
    rw [processElementsWith_eq _ _ hwalk, processElementsWith_eq _ _ hwalk,
      processSections_eq, processElementsWith_eq _ _ hwalk]
    have hpart : ∀ el : AknNode,
        (if ("part" : String) = ("section") ∨ ("part" : String) = ("hcontainer") then
          match elemRecord ("part") el with
          | some r => [r]
          | none => []
        else [])
        ++ kindWalkAux f el = kindWalkAux f el := by
      intro el
      rw [if_neg (by decide)]
      simp
    have hchap : ∀ el : AknNode,
        (if ("chapter" : String) = ("section") ∨ ("chapter" : String) = ("hcontainer") then
          match elemRecord ("chapter") el with
          | some r => [r]
          | none => []
        else [])
        ++ kindWalkAux f el = kindWalkAux f el := by
      intro el
      rw [if_neg (by decide)]
      simp
    have hhc : ∀ el : AknNode,
        (if ("hcontainer" : String) = ("section") ∨ ("hcontainer" : String) = ("hcontainer")
          then
          match elemRecord ("hcontainer") el with
          | some r => [r]
          | none => []
        else [])
        ++ kindWalkAux f el
        = (match elemRecord ("hcontainer") el with
           | some r => [r]
           | none => [])
          ++ kindWalkAux f el := by
      intro el
      rw [if_pos (Or.inr rfl)]
    rw [List.map_congr_left (fun el _ => hpart el),
      List.map_congr_left (fun el _ => hchap el),
      List.map_congr_left (fun el _ => hhc el)]
    show acc ++ _ ++ _ ++ _ ++ _ = acc ++ kindWalkAux (f + 1) node
    rw [kindWalkAux]
    have hep : elementsOf node ("part") = node.part := rfl
    have hec : elementsOf node ("chapter") = node.chapter := rfl
    have heh : elementsOf node ("hcontainer") = node.hcontainer := rfl
    rw [hep, hec, heh]
    simp [List.append_assoc]

/-- Claim C4 (amended): the tree walker emits provision records in a
kind-grouped pre-order — at every level all `part` subtrees, then all
`chapter` subtrees, then all `section` elements, then all `hcontainer`
elements, each kind in sibling list order, and each section's own record
before the records of its numbered sub-units.  Document order across
different element kinds is not preserved (see the counterexample): the
output of `extractProvisions` equals the compositional kind-grouped walk. -/
theorem treeWalker_kind_grouped_order (body : AknNode) :
    extractProvisionsFn body = kindGroupedWalk body := by
  rw [extractProvisionsFn, kindGroupedWalk, extractProvisionsAux_eq]
  simp

/-- A section numbered `1` with direct text, no eId, and no subsections. -/
def demoSection1 : AknNode :=
  .mk none (some ("1")) (some ("Purpose")) (some ("Content one."))
    [] [] [] none none [] [] [] [] [] []

/-- A second, distinct section also numbered `1`. -/
def demoSection2 : AknNode :=
  .mk none (some ("1")) (some ("Scope")) (some ("Content two."))
    [] [] [] none none [] [] [] [] [] []

/-- A body holding exactly the given sections. -/
def bodyWithSections (secs : List AknNode) : AknNode :=
  .mk none none none none [] [] [] none none [] [] [] secs [] []

/-- A section numbered `2` nested in the demo chapter. -/
def demoInnerSection : AknNode :=
  .mk none (some ("2")) (some ("Inner")) (some ("Inner text."))
    [] [] [] none none [] [] [] [] [] []

/-- A chapter holding one section numbered `2`. -/
def demoChapter : AknNode :=
  .mk none (some ("1")) (some ("General")) none
    [] [] [] none none [] [] [] [demoInnerSection] [] []

/-- A body holding the demo chapter and, at body level, the section numbered
`1`. -/
def demoMixedBody : AknNode :=
  .mk none none none none [] [] [] none none [] [] [demoChapter] [demoSection1] [] []

/-- Claim C4 fails as stated: the walker processes every chapter before any
body-level section, so for a body holding a chapter (whose inner section is
numbered `2`) and a body-level section numbered `1`, the chapter's descendant
record precedes the body-level section's record unconditionally.  The parsed
object model carries no cross-kind position, so for every source document in
which the body-level section appeared before the chapter — a shape the input
cannot even distinguish — the emitted order is not the document order. -/
theorem treeWalker_document_order_counterexample :
    ((parseAknXmlProvisions (some demoMixedBody)).map (fun pr => pr.provision_ref))
      = [("s2"), ("s1")] ∧
    ((parseAknXmlProvisions (some demoMixedBody)).map (fun pr => pr.provision_ref))
      ≠ [("s1"), ("s2")] := by
  exact ⟨by decide, by decide⟩

/-- Claim C1 fails as stated: two sibling sections with no eId and the same
`num` both derive the reference `s1`, and the walker emits both records with
no collision detection — the output of `parseAknXml`'s provision extraction
carries duplicate `provision_ref` values. -/
theorem provisionRef_collision_counterexample :
    ((parseAknXmlProvisions (some (bodyWithSections [demoSection1, demoSection2]))).map
      (fun pr => pr.provision_ref)) = [("s1"), ("s1")] ∧
    ¬ ((parseAknXmlProvisions (some (bodyWithSections [demoSection1, demoSection2]))).map
      (fun pr => pr.provision_ref)).Nodup := by
  exact ⟨by decide, by decide⟩

/-- Claim C1 (amended): the walker does not deduplicate references and does
not detect collisions — each section with nonempty content contributes its own
record, appended in order and independent of every earlier record, so a
collision shows up as duplicate records in the output (both preserved, none
overwritten or suppressed) and `provision_ref` uniqueness is not guaranteed.
Stated for a body holding two sections: both records are emitted whether or
not their references coincide. -/
theorem processSections_keeps_collisions (s1 s2 : AknNode) (r1 r2 : ParsedProvision)
    (h1 : elemRecord ("section") s1 = some r1)
    (h2 : elemRecord ("section") s2 = some r2)
    (hs1 : s1.subsection = []) (hs2 : s2.subsection = []) :
    processSections (bodyWithSections [s1, s2]) [] ("") = [r1, r2] := by
  have he : elementsOf (bodyWithSections [s1, s2]) ("section") = [s1, s2] := rfl
  rw [processSections, he]
  rw [List.foldl_cons, h1, hs1, List.foldl_cons, h2, hs2]
  rfl

/-- Witness: the two colliding demo sections both contribute records carrying
the same reference `s1`. -/
theorem processSections_keeps_collisions_witness :
    processSections (bodyWithSections [demoSection1, demoSection2]) [] ("")
      = [{ provision_ref := ("s1"), «section» := ("1"), title := ("Purpose"),
           content := ("Content one.") },
         { provision_ref := ("s1"), «section» := ("1"), title := ("Scope"),
           content := ("Content two.") }] :=
  processSections_keeps_collisions demoSection1 demoSection2 _ _
    (by decide) (by decide) (by rfl) (by rfl)

end UKLaw

